import Mathlib

/-!
# Verification of the news-aggregator pipeline core

A shallow embedding, in Lean 4, of the decision logic of the
`news_aggregator` Python package: the deduplicator (URL pass, fuzzy
title pass, history pass), the article ranker and its scoring model,
the provider selector, the multi-provider summarization fallback walk,
and the per-provider metrics counters.  Each definition mirrors the
corresponding Python function; timestamps are modelled as integers
(seconds), Python floats as exact rationals, and Python dictionaries as
association lists in insertion order.
-/

namespace NewsAggregator

/-! ## Data model (`models.py`) -/

/-- `Article` from `models.py`: a fetched news article.  `published_at`
is modelled as an integer timestamp (seconds). -/
structure Article where
  url : String
  title : String
  content : String
  published_at : Int
  topic : String
  source : String
deriving DecidableEq

/-- `RankedArticle` from `models.py`: an article with its quality score. -/
structure RankedArticle where
  article : Article
  quality_score : ℚ
deriving DecidableEq

/-- `SummarizedArticle` from `models.py`: an article (the dataclass
subclasses `Article`, so all its fields are repeated) plus summary
bullets, the audience level, and the failure flag. -/
structure SummarizedArticle where
  url : String
  title : String
  content : String
  published_at : Int
  topic : String
  source : String
  summary_bullets : List String
  audience_level : String
  summarization_failed : Bool
deriving DecidableEq

/-- `SummarizedArticle.from_article`.  The Python default for
`summary_bullets` is `None`, and the body uses `summary_bullets or []`,
which maps both `None` and the empty list to `[]`. -/
def SummarizedArticle.from_article (article : Article)
    (summary_bullets : Option (List String)) (audience_level : String)
    (summarization_failed : Bool) : SummarizedArticle :=
  { url := article.url
    title := article.title
    content := article.content
    published_at := article.published_at
    topic := article.topic
    source := article.source
    summary_bullets :=
      match summary_bullets with
      | none => []
      | some bs => if bs.isEmpty then [] else bs
    audience_level := audience_level
    summarization_failed := summarization_failed }

/-- `ArticleHistoryEntry` from `models.py`: one entry of the sent-article
history (`sent_at` modelled as an integer timestamp). -/
structure ArticleHistoryEntry where
  url : String
  title : String
  sent_at : Int
deriving DecidableEq

/-- The history dictionary of `ArticleHistory` (`deduplicator.py`),
mapping URLs to entries; modelled as an association list. -/
abbrev History := List (String × ArticleHistoryEntry)

/-! ## Fuzzy title similarity (model of `fuzzywuzzy.fuzz.ratio`)

`fuzz.ratio(s1, s2)` returns `round(100 * (lensum - ldist) / lensum)`
where `lensum = len(s1) + len(s2)` and `ldist` is the Levenshtein
distance with substitution weight 2; that distance equals
`lensum - 2 * lcs(s1, s2)`, so the ratio is `round(200 * lcs / lensum)`.
We define the longest-common-subsequence length by structural recursion
(an inner recursion over the second list) so that it evaluates inside
the kernel. -/

/-- Inner recursion for `lcs`: given `f = lcs as`, computes
`lcs (a :: as)` on the second list. -/
def lcsInner (a : Char) (f : List Char → Nat) : List Char → Nat
  | [] => 0
  | b :: bs => if a = b then f bs + 1 else max (lcsInner a f bs) (f (b :: bs))

/-- Longest common subsequence length of two character lists. -/
def lcs : List Char → List Char → Nat
  | [], _ => 0
  | a :: as, bs => lcsInner a (lcs as) bs

/-- Model of `fuzzywuzzy.fuzz.ratio` on strings: `round(200*lcs/lensum)`
(rounding to nearest, and `100` when both strings are empty). -/
def fuzzRatio (s1 s2 : String) : Nat :=
  let l1 := s1.data
  let l2 := s2.data
  let lensum := l1.length + l2.length
  if lensum = 0 then 100
  else (400 * lcs l1 l2 + lensum) / (2 * lensum)

/-- Model of Python `str.lower()` (ASCII case folding, which is all the
repository's tests exercise). -/
def pyLower (s : String) : String := ⟨s.data.map Char.toLower⟩

/-! ## Deduplicator (`deduplicator.py`) -/

/-- `ArticleHistory.is_sent`: membership of a URL in the history map. -/
def is_sent (history : History) (url : String) : Bool :=
  (history.lookup url).isSome

/-- Loop of `Deduplicator._deduplicate_by_url`, with the `seen_urls` set
made explicit (as the list of URLs inserted so far). -/
def deduplicate_by_url_aux (seen : List String) : List Article → List Article
  | [] => []
  | a :: rest =>
    if a.url ∈ seen then deduplicate_by_url_aux seen rest
    else a :: deduplicate_by_url_aux (a.url :: seen) rest

/-- `Deduplicator._deduplicate_by_url`: keep the first occurrence of
each distinct URL, in input order. -/
def deduplicate_by_url (articles : List Article) : List Article :=
  deduplicate_by_url_aux [] articles

/-- One iteration of the outer loop of
`Deduplicator._deduplicate_by_title`: compare the candidate against the
accepted unique articles in order and stop at the first one whose
lowercased title is strictly more similar than the threshold; on a
match, either replace that accepted article (candidate published
earlier) or drop the candidate.  Python's `list.remove` removes the
first element equal to the accepted duplicate, and `Article.__eq__`
compares by `url` only, hence the `eraseP` on URL equality. -/
def titleStep (threshold : Nat) (uniques : List Article) (article : Article) :
    List Article :=
  match uniques.find?
      (fun u => threshold < fuzzRatio (pyLower article.title) (pyLower u.title)) with
  | none => uniques ++ [article]
  | some u =>
    if article.published_at < u.published_at then
      (uniques.eraseP (fun x => x.url == u.url)) ++ [article]
    else uniques

/-- `Deduplicator._deduplicate_by_title`: fold the candidates, in input
order, into an accumulating list of accepted unique articles. -/
def deduplicate_by_title (threshold : Nat) (articles : List Article) :
    List Article :=
  articles.foldl (titleStep threshold) []

/-- `Deduplicator._filter_sent`: drop articles whose URL is in history. -/
def filter_sent (history : History) (articles : List Article) : List Article :=
  articles.filter (fun a => !is_sent history a.url)

/-- `Deduplicator.deduplicate`: URL pass, then title-similarity pass,
then history pass. -/
def deduplicate (history : History) (threshold : Nat)
    (articles : List Article) : List Article :=
  filter_sent history (deduplicate_by_title threshold (deduplicate_by_url articles))

/-- No later article's lowercased title is similar (strictly above the
threshold) to an earlier one's: the state in which the title pass
accepts every candidate unchanged. -/
def pairwiseDissimilar (threshold : Nat) (articles : List Article) : Prop :=
  articles.Pairwise
    (fun u v => fuzzRatio (pyLower v.title) (pyLower u.title) ≤ threshold)

/-! ## Configuration (`config.py`) -/

/-- `TopicConfig` from `config.py`. -/
structure TopicConfig where
  audience_level : String
  include_context : Bool
  context_text : Option String
  min_quality_score : ℚ
  max_articles_per_day : Nat
  trusted_sources : List String
deriving DecidableEq

/-- `ProviderConfig` from `config.py` (the fields the pipeline core
reads; `base_url` is transport-only and omitted). -/
structure ProviderConfig where
  provider_id : String
  provider_type : String
  api_key : String
  model : String
  enabled : Bool
  priority : Int
  timeout : Int
  max_tokens : Nat
  temperature : ℚ
  input_cost_per_1M_tokens : ℚ
  output_cost_per_1M_tokens : ℚ
deriving DecidableEq

/-- `ProviderConfig.estimated_cost_per_request` at its default reference
token counts (1500 input / 200 output), as the selector calls it. -/
def ProviderConfig.estimated_cost_per_request (c : ProviderConfig) : ℚ :=
  (1500 / 1000000) * c.input_cost_per_1M_tokens +
    (200 / 1000000) * c.output_cost_per_1M_tokens

/-! ## Scoring model (`processing/ranker.py`)

`datetime.now()` is made an explicit `now : Int` parameter (seconds);
ages are compared against 24/48/72 hours in seconds. -/

/-- `ArticleRanker._score_content_depth`: piecewise-linear in the
content length. -/
def score_content_depth (article : Article) : ℚ :=
  let content_length := article.content.length
  if content_length < 200 then (content_length : ℚ) / 400
  else if content_length < 500 then
    1 / 2 + ((content_length : ℚ) - 200) / 1000
  else 4 / 5 + ((min (content_length - 500) 1000 : ℕ) : ℚ) / 5000

/-- `ArticleRanker._score_recency`: step function on the age
`now - published_at`. -/
def score_recency (now : Int) (article : Article) : ℚ :=
  let age := now - article.published_at
  if age < 24 * 3600 then 1
  else if age < 48 * 3600 then 1 / 2
  else if age < 72 * 3600 then 1 / 5
  else 0

/-- Substring test (model of Python's `in` on strings). -/
def strContainsSubstr (hay needle : String) : Bool :=
  hay.data.tails.any (fun suf => needle.data.isPrefixOf suf)

/-- `ArticleRanker._score_source_trust`: 1.0 on a case-insensitive
partial match against the topic's trusted sources, 0.5 otherwise. -/
def score_source_trust (topics : List (String × TopicConfig))
    (article : Article) : ℚ :=
  match topics.lookup article.topic with
  | none => 1 / 2
  | some topic_config =>
    if topic_config.trusted_sources.isEmpty then 1 / 2
    else if topic_config.trusted_sources.any (fun trusted_source =>
        strContainsSubstr (pyLower article.source) (pyLower trusted_source) ||
          strContainsSubstr (pyLower trusted_source) (pyLower article.source))
    then 1 else 1 / 2

/-- Model of Python's `round` (banker's rounding, to an integer). -/
def bankersRound (q : ℚ) : ℤ :=
  let n := ⌊q⌋
  let r := q - n
  if r < 1 / 2 then n
  else if 1 / 2 < r then n + 1
  else if 2 ∣ n then n else n + 1

/-- Model of Python's `round(x, 3)`. -/
def round3 (q : ℚ) : ℚ := (bankersRound (q * 1000) : ℚ) / 1000

/-- `ArticleRanker.calculate_score`: weighted sum of the three
sub-scores (weights 0.4 / 0.3 / 0.3), rounded to 3 decimals. -/
def calculate_score (now : Int) (topics : List (String × TopicConfig))
    (article : Article) : ℚ :=
  round3 (score_content_depth article * (4 / 10) +
    score_recency now article * (3 / 10) +
    score_source_trust topics article * (3 / 10))

/-! ## Ranker (`processing/ranker.py`) -/

/-- Sort order used by `rank_and_filter`: quality score descending.
Python's stable `list.sort(..., reverse=True)` is modelled by a stable
insertion sort under this total preorder. -/
def scoreDesc (x y : RankedArticle) : Prop :=
  y.quality_score ≤ x.quality_score

instance : DecidableRel scoreDesc := fun x y =>
  inferInstanceAs (Decidable (y.quality_score ≤ x.quality_score))

/-- First-seen-order list of distinct keys, modelling iteration over the
`defaultdict` built by `rank_and_filter` (Python dicts iterate in
insertion order). -/
def insertionKeys (seen : List String) : List String → List String
  | [] => []
  | k :: rest =>
    if k ∈ seen then insertionKeys seen rest
    else k :: insertionKeys (k :: seen) rest

/-- Per-topic step of `ArticleRanker.rank_and_filter`: drop articles
scoring below `min_quality_score`, sort by score descending (stable),
truncate to `max_articles_per_day`. -/
def process_topic (topic_config : TopicConfig)
    (topic_articles : List RankedArticle) : List RankedArticle :=
  ((topic_articles.filter
      (fun ra => topic_config.min_quality_score ≤ ra.quality_score)).insertionSort
    scoreDesc).take topic_config.max_articles_per_day

/-- Output contributed by one topic bucket in `rank_and_filter`: topics
without a `TopicConfig` are skipped with a warning (empty output),
configured topics go through `process_topic` on their own bucket. -/
def topic_output (topics : List (String × TopicConfig))
    (ranked_articles : List RankedArticle) (topic : String) :
    List RankedArticle :=
  match topics.lookup topic with
  | none => []
  | some topic_config =>
    process_topic topic_config
      (ranked_articles.filter (fun ra => ra.article.topic == topic))

/-- `ArticleRanker.rank_and_filter`: score every article, group by
topic, process each configured topic, drop topics without a
`TopicConfig`, and concatenate the buckets in first-seen topic order. -/
def rank_and_filter (now : Int) (topics : List (String × TopicConfig))
    (articles : List Article) : List RankedArticle :=
  if articles.isEmpty then []
  else
    (insertionKeys [] (articles.map (fun a => a.topic))).flatMap
      (topic_output topics
        (articles.map (fun a => RankedArticle.mk a (calculate_score now topics a))))

/-! ## Provider selector (`providers/selector.py`) -/

/-- Sort order on provider configs: ascending configured priority. -/
def priorityOrder (c d : ProviderConfig) : Prop := c.priority ≤ d.priority

instance : DecidableRel priorityOrder := fun c d =>
  inferInstanceAs (Decidable (c.priority ≤ d.priority))

/-- Sort order on provider configs: ascending estimated cost. -/
def costOrder (c d : ProviderConfig) : Prop :=
  c.estimated_cost_per_request ≤ d.estimated_cost_per_request

instance : DecidableRel costOrder := fun c d =>
  inferInstanceAs (Decidable (c.estimated_cost_per_request ≤ d.estimated_cost_per_request))

/-- `ProviderSelector._build_provider_order`: filter to enabled configs,
sort by the configured strategy (Python's stable `list.sort` is modelled
by a stable insertion sort), return the provider ids. -/
def build_provider_order (strategy : String)
    (configs : List ProviderConfig) : List String :=
  let enabled_configs := configs.filter (fun c => c.enabled)
  let sorted :=
    if strategy = "priority" then enabled_configs.insertionSort priorityOrder
    else if strategy = "cost" then enabled_configs.insertionSort costOrder
    else if strategy = "performance" then enabled_configs.insertionSort priorityOrder
    else enabled_configs.insertionSort priorityOrder
  sorted.map (fun c => c.provider_id)

/-! ## Multi-provider summarizer (`providers/multi_provider_summarizer.py`) -/

/-- Provider identifiers, as handed out by the selector. -/
abbrev ProviderId := String

/-- Outcome of one `provider.summarize_async` call, as observed by the
fallback walk: either an exception (`ProviderAPIError` or unexpected),
or a returned bullet list. -/
inductive ProviderOutcome where
  | apiError : ProviderOutcome
  | success : List String → ProviderOutcome
deriving DecidableEq

/-- `MultiProviderSummarizer._summarize_article_with_fallback`: walk the
provider chain in order; skip a provider on exception or on fewer than
3 bullets; on the first acceptable summary return the article with the
bullets truncated to 5 and `summarization_failed = False`; when the
chain is exhausted return the article with empty bullets and
`summarization_failed = True`. -/
def summarize_article_with_fallback (call : ProviderId → ProviderOutcome)
    (article : Article) (audience_level : String) :
    List ProviderId → SummarizedArticle
  | [] => SummarizedArticle.from_article article (some []) audience_level true
  | provider_id :: rest =>
    match call provider_id with
    | .apiError =>
      summarize_article_with_fallback call article audience_level rest
    | .success bullets =>
      if bullets.length < 3 then
        summarize_article_with_fallback call article audience_level rest
      else
        SummarizedArticle.from_article article (some (bullets.take 5))
          audience_level false

/-! ## Provider metrics (`providers/metrics.py`) -/

/-- `ProviderMetrics` from `metrics.py`. -/
structure ProviderMetrics where
  provider_id : String
  total_requests : Nat
  successful_requests : Nat
  failed_requests : Nat
  total_input_tokens : Nat
  total_output_tokens : Nat
  total_latency_seconds : ℚ
  consecutive_failures : Nat
deriving DecidableEq

/-- A fresh `ProviderMetrics` (all counters at their dataclass
defaults). -/
def ProviderMetrics.init (provider_id : String) : ProviderMetrics :=
  { provider_id := provider_id
    total_requests := 0
    successful_requests := 0
    failed_requests := 0
    total_input_tokens := 0
    total_output_tokens := 0
    total_latency_seconds := 0
    consecutive_failures := 0 }

/-- `ProviderMetrics.record_success`. -/
def ProviderMetrics.record_success (m : ProviderMetrics) (latency : ℚ)
    (input_tokens output_tokens : Nat) : ProviderMetrics :=
  { m with
    total_requests := m.total_requests + 1
    successful_requests := m.successful_requests + 1
    total_input_tokens := m.total_input_tokens + input_tokens
    total_output_tokens := m.total_output_tokens + output_tokens
    total_latency_seconds := m.total_latency_seconds + latency
    consecutive_failures := 0 }

/-- `ProviderMetrics.record_failure` (the error string is logged only). -/
def ProviderMetrics.record_failure (m : ProviderMetrics) : ProviderMetrics :=
  { m with
    total_requests := m.total_requests + 1
    failed_requests := m.failed_requests + 1
    consecutive_failures := m.consecutive_failures + 1 }

/-- One call observed by a provider's metrics object. -/
inductive MetricsEvent where
  | success : ℚ → Nat → Nat → MetricsEvent
  | failure : MetricsEvent
deriving DecidableEq

/-- Apply one recorded call to the metrics. -/
def applyEvent (m : ProviderMetrics) : MetricsEvent → ProviderMetrics
  | .success latency input_tokens output_tokens =>
    m.record_success latency input_tokens output_tokens
  | .failure => m.record_failure

/-- Metrics after a sequence of recorded calls, starting fresh. -/
def runEvents (provider_id : String) (events : List MetricsEvent) :
    ProviderMetrics :=
  events.foldl applyEvent (ProviderMetrics.init provider_id)

/-- Whether an event is a failure. -/
def MetricsEvent.isFailure : MetricsEvent → Bool
  | .failure => true
  | .success _ _ _ => false

/-! ## Supporting lemmas -/

theorem lcs_nil_right : ∀ l : List Char, lcs l [] = 0
  | [] => rfl
  | _ :: _ => rfl

theorem lcs_cons_cons (a b : Char) (as bs : List Char) :
    lcs (a :: as) (b :: bs) =
      if a = b then lcs as bs + 1
      else max (lcs (a :: as) bs) (lcs as (b :: bs)) := rfl

theorem lcs_comm (l1 l2 : List Char) : lcs l1 l2 = lcs l2 l1 := by
  induction l1 generalizing l2 with
  | nil => simp [lcs, lcs_nil_right]
  | cons a as ih =>
    induction l2 with
    | nil => simpa using lcs_nil_right (a :: as)
    | cons b bs ih2 =>
      rw [lcs_cons_cons, lcs_cons_cons]
      by_cases hab : a = b
      · subst hab; rw [if_pos rfl, if_pos rfl, ih bs]
      · rw [if_neg hab, if_neg (Ne.symm hab), ih2, ih (b :: bs), Nat.max_comm]

theorem fuzzRatio_comm (s1 s2 : String) : fuzzRatio s1 s2 = fuzzRatio s2 s1 := by
  simp only [fuzzRatio]
  rw [lcs_comm, Nat.add_comm s2.data.length]

theorem subperm_map {α β : Type} (f : α → β) {l1 l2 : List α}
    (h : List.Subperm l1 l2) : List.Subperm (l1.map f) (l2.map f) := by
  obtain ⟨w, hperm, hsub⟩ := h
  exact ⟨w.map f, hperm.map f, hsub.map f⟩

theorem subperm_nodup {α : Type} {l1 l2 : List α} (h : List.Subperm l1 l2)
    (hn : l2.Nodup) : l1.Nodup := by
  obtain ⟨w, hperm, hsub⟩ := h
  exact hperm.nodup_iff.mp (List.Nodup.sublist hsub hn)

theorem subperm_append_compat {α : Type} {l1 l2 : List α} (t : List α)
    (h : List.Subperm l1 l2) : List.Subperm (l1 ++ t) (l2 ++ t) := by
  obtain ⟨w, hperm, hsub⟩ := h
  exact ⟨w ++ t, hperm.append_right t, hsub.append (List.Sublist.refl t)⟩

/-! ### URL pass -/

theorem deduplicate_by_url_aux_sublist :
    ∀ (l : List Article) (seen : List String),
      (deduplicate_by_url_aux seen l).Sublist l := by
  intro l
  induction l with
  | nil => intro seen; simp [deduplicate_by_url_aux]
  | cons a rest ih =>
    intro seen
    rw [deduplicate_by_url_aux]
    split
    · exact (ih seen).cons a
    · exact (ih (a.url :: seen)).cons₂ a

theorem mem_deduplicate_by_url_aux_not_seen :
    ∀ (l : List Article) (seen : List String) (o : Article),
      o ∈ deduplicate_by_url_aux seen l → o.url ∉ seen := by
  intro l
  induction l with
  | nil => intro seen o ho; simp [deduplicate_by_url_aux] at ho
  | cons a rest ih =>
    intro seen o ho
    rw [deduplicate_by_url_aux] at ho
    split at ho
    · exact ih seen o ho
    · rcases List.mem_cons.mp ho with h | h
      · subst h; assumption
      · exact fun hmem => ih (a.url :: seen) o h (List.mem_cons_of_mem _ hmem)

theorem nodup_url_deduplicate_by_url_aux :
    ∀ (l : List Article) (seen : List String),
      ((deduplicate_by_url_aux seen l).map (fun a => a.url)).Nodup := by
  intro l
  induction l with
  | nil => intro seen; simp [deduplicate_by_url_aux]
  | cons a rest ih =>
    intro seen
    rw [deduplicate_by_url_aux]
    split
    · exact ih seen
    · rw [List.map_cons]
      refine List.nodup_cons.mpr ⟨?_, ih (a.url :: seen)⟩
      intro hmem
      obtain ⟨o, ho, hurl⟩ := List.mem_map.mp hmem
      exact mem_deduplicate_by_url_aux_not_seen rest (a.url :: seen) o ho
        (hurl ▸ List.mem_cons_self a.url seen)

theorem find?_deduplicate_by_url_aux :
    ∀ (l : List Article) (seen : List String) (o : Article),
      o ∈ deduplicate_by_url_aux seen l →
      l.find? (fun x => x.url == o.url) = some o := by
  intro l
  induction l with
  | nil => intro seen o ho; simp [deduplicate_by_url_aux] at ho
  | cons a rest ih =>
    intro seen o ho
    rw [deduplicate_by_url_aux] at ho
    split at ho
    · have hne : a.url ≠ o.url := by
        intro h
        exact mem_deduplicate_by_url_aux_not_seen rest seen o ho (h ▸ ‹a.url ∈ seen›)
      rw [List.find?_cons_of_neg _ (by simpa using hne), ih seen o ho]
    · rcases List.mem_cons.mp ho with h | h
      · subst h
        exact List.find?_cons_of_pos _ (by simp)
      · have hne : a.url ≠ o.url := by
          intro heq
          exact mem_deduplicate_by_url_aux_not_seen rest (a.url :: seen) o h
            (heq ▸ List.mem_cons_self a.url seen)
        rw [List.find?_cons_of_neg _ (by simpa using hne), ih (a.url :: seen) o h]

theorem exists_deduplicate_by_url_aux :
    ∀ (l : List Article) (seen : List String) (a : Article),
      a ∈ l → a.url ∉ seen →
      ∃ o ∈ deduplicate_by_url_aux seen l, o.url = a.url := by
  intro l
  induction l with
  | nil => intro seen a ha; simp at ha
  | cons b rest ih =>
    intro seen a ha hseen
    rw [deduplicate_by_url_aux]
    rcases List.mem_cons.mp ha with h | h
    · subst h
      rw [if_neg hseen]
      exact ⟨a, List.mem_cons_self a _, rfl⟩
    · split
      · exact ih seen a h hseen
      · by_cases hab : a.url = b.url
        · exact ⟨b, List.mem_cons_self b _, hab.symm⟩
        · obtain ⟨o, ho, hurl⟩ := ih (b.url :: seen) a h
            (by simp [hab, hseen])
          exact ⟨o, List.mem_cons_of_mem _ ho, hurl⟩

theorem deduplicate_by_url_aux_eq_self :
    ∀ (l : List Article) (seen : List String),
      (∀ a ∈ l, a.url ∉ seen) → ((l.map (fun a => a.url)).Nodup) →
      deduplicate_by_url_aux seen l = l := by
  intro l
  induction l with
  | nil => intro seen _ _; rfl
  | cons a rest ih =>
    intro seen hseen hnodup
    rw [deduplicate_by_url_aux, if_neg (hseen a (List.mem_cons_self a rest))]
    rw [List.map_cons, List.nodup_cons] at hnodup
    congr 1
    refine ih (a.url :: seen) ?_ hnodup.2
    intro x hx
    simp only [List.mem_cons, not_or]
    exact ⟨fun heq => hnodup.1 (heq ▸ List.mem_map_of_mem (fun a => a.url) hx),
      hseen x (List.mem_cons_of_mem a hx)⟩

/-! ### Title-similarity pass -/

theorem titleStep_subperm (threshold : Nat) (acc : List Article) (a : Article) :
    List.Subperm (titleStep threshold acc a) (acc ++ [a]) := by
  rw [titleStep]
  split
  · exact List.Subperm.refl _
  · split
    · exact ((List.eraseP_sublist acc).append (List.Sublist.refl [a])).subperm
    · exact (List.sublist_append_left acc [a]).subperm

theorem foldl_titleStep_subperm (threshold : Nat) :
    ∀ (l acc : List Article),
      List.Subperm (l.foldl (titleStep threshold) acc) (acc ++ l) := by
  intro l
  induction l with
  | nil => intro acc; simpa using List.Subperm.refl acc
  | cons a rest ih =>
    intro acc
    rw [List.foldl_cons]
    refine (ih (titleStep threshold acc a)).trans ?_
    have h := subperm_append_compat rest (titleStep_subperm threshold acc a)
    simpa [List.append_assoc] using h

theorem deduplicate_by_title_subperm (threshold : Nat) (l : List Article) :
    List.Subperm (deduplicate_by_title threshold l) l := by
  simpa [deduplicate_by_title] using foldl_titleStep_subperm threshold l []

theorem foldl_titleStep_eq_append (threshold : Nat) :
    ∀ (l acc : List Article),
      (∀ v ∈ l, ∀ u ∈ acc,
        fuzzRatio (pyLower v.title) (pyLower u.title) ≤ threshold) →
      l.Pairwise
        (fun u v => fuzzRatio (pyLower v.title) (pyLower u.title) ≤ threshold) →
      l.foldl (titleStep threshold) acc = acc ++ l := by
  intro l
  induction l with
  | nil => intro acc _ _; simp
  | cons a rest ih =>
    intro acc hacc hpw
    rw [List.pairwise_cons] at hpw
    have hstep : titleStep threshold acc a = acc ++ [a] := by
      rw [titleStep]
      have hnone : acc.find?
          (fun u => threshold < fuzzRatio (pyLower a.title) (pyLower u.title)) = none := by
        rw [List.find?_eq_none]
        intro u hu
        simpa using Nat.not_lt.mpr (hacc a (List.mem_cons_self a rest) u hu)
      rw [hnone]
    rw [List.foldl_cons, hstep, ih (acc ++ [a]) ?_ hpw.2]
    · simp
    · intro v hv u hu
      rcases List.mem_append.mp hu with h | h
      · exact hacc v (List.mem_cons_of_mem a hv) u h
      · rw [List.mem_singleton.mp h]
        exact hpw.1 v hv

theorem deduplicate_by_title_eq_self (threshold : Nat) {l : List Article}
    (h : pairwiseDissimilar threshold l) :
    deduplicate_by_title threshold l = l := by
  rw [deduplicate_by_title, foldl_titleStep_eq_append threshold l [] (by simp) h]
  simp

/-! ### History pass and full deduplication -/

theorem mem_deduplicate_not_sent {history : History} {threshold : Nat}
    {l : List Article} {o : Article} (ho : o ∈ deduplicate history threshold l) :
    is_sent history o.url = false := by
  have := List.mem_filter.mp ho
  simpa using this.2

theorem nodup_url_deduplicate (history : History) (threshold : Nat)
    (l : List Article) :
    ((deduplicate history threshold l).map (fun a => a.url)).Nodup := by
  have h1 : ((deduplicate_by_url l).map (fun a => a.url)).Nodup :=
    nodup_url_deduplicate_by_url_aux l []
  have h2 : List.Subperm (deduplicate history threshold l) (deduplicate_by_url l) := by
    refine List.Subperm.trans ?_ (deduplicate_by_title_subperm threshold _)
    exact (List.filter_sublist _).subperm
  exact subperm_nodup (subperm_map _ h2) h1

instance (threshold : Nat) (l : List Article) :
    Decidable (pairwiseDissimilar threshold l) := by
  unfold pairwiseDissimilar; infer_instance

/-! ## Claims about the deduplicator -/

/-- C1, counterexample: `deduplicate` is not idempotent.  With the
default threshold 80 and empty history, the titles "abcdexy", "abcdeuv"
and "abcde" have pairwise ratios 71, 83 and 83; the third article is
published earliest, so the title pass replaces the first accepted
article with it and re-appends it at the end, leaving it adjacent to a
still-similar survivor; a second pass removes one more article. -/
theorem deduplicate_not_idempotent_cex :
    deduplicate [] 80 (deduplicate [] 80
        [⟨"u1", "abcdexy", "c", 10, "t", "s"⟩,
         ⟨"u3", "abcdeuv", "c", 5, "t", "s"⟩,
         ⟨"u2", "abcde", "c", 3, "t", "s"⟩]) ≠
      deduplicate [] 80
        [⟨"u1", "abcdexy", "c", 10, "t", "s"⟩,
         ⟨"u3", "abcdeuv", "c", 5, "t", "s"⟩,
         ⟨"u2", "abcde", "c", 3, "t", "s"⟩] := by decide

/-- C1, amended: one pass of `deduplicate` leaves no URL or history
duplicates, but an earlier-published replacement in the title pass can
leave a title-similar pair in the output; whenever the first pass's
output is pairwise title-dissimilar (in particular whenever no
replacement fires), a second `deduplicate` is the identity on it. -/
theorem deduplicate_idempotent_of_pairwise_dissimilar (history : History)
    (threshold : Nat) (articles : List Article)
    (h : pairwiseDissimilar threshold (deduplicate history threshold articles)) :
    deduplicate history threshold (deduplicate history threshold articles) =
      deduplicate history threshold articles := by
  have hnodup := nodup_url_deduplicate history threshold articles
  have hu : deduplicate_by_url (deduplicate history threshold articles) =
      deduplicate history threshold articles :=
    deduplicate_by_url_aux_eq_self _ [] (by simp) hnodup
  have ht : deduplicate_by_title threshold (deduplicate history threshold articles) =
      deduplicate history threshold articles :=
    deduplicate_by_title_eq_self threshold h
  have hf : filter_sent history (deduplicate history threshold articles) =
      deduplicate history threshold articles := by
    rw [filter_sent, List.filter_eq_self]
    intro o ho
    simp [mem_deduplicate_not_sent ho]
  show filter_sent history (deduplicate_by_title threshold
    (deduplicate_by_url (deduplicate history threshold articles))) = _
  rw [hu, ht, hf]

/-- Witness for the amended C1 at a concrete dissimilar pair. -/
theorem deduplicate_idempotent_of_pairwise_dissimilar_witness :
    pairwiseDissimilar 80 (deduplicate [] 80
        [⟨"u1", "alpha news", "c", 1, "t", "s"⟩,
         ⟨"u2", "omega story", "c", 2, "t", "s"⟩]) ∧
      deduplicate [] 80 (deduplicate [] 80
          [⟨"u1", "alpha news", "c", 1, "t", "s"⟩,
           ⟨"u2", "omega story", "c", 2, "t", "s"⟩]) =
        deduplicate [] 80
          [⟨"u1", "alpha news", "c", 1, "t", "s"⟩,
           ⟨"u2", "omega story", "c", 2, "t", "s"⟩] :=
  ⟨by decide, deduplicate_idempotent_of_pairwise_dissimilar [] 80 _ (by decide)⟩

/-- C2: given two articles with distinct URLs, neither previously sent,
whose lowercased titles have fuzzy ratio strictly above the threshold,
`deduplicate` keeps exactly the earlier-published one, in either input
order. -/
theorem title_similarity_tiebreak (history : History) (threshold : Nat)
    (a b : Article) (hurl : a.url ≠ b.url)
    (hsent : is_sent history a.url = false)
    (hsim : threshold < fuzzRatio (pyLower a.title) (pyLower b.title))
    (hpub : a.published_at < b.published_at) :
    deduplicate history threshold [a, b] = [a] ∧
      deduplicate history threshold [b, a] = [a] := by
  have hsim2 : threshold < fuzzRatio (pyLower b.title) (pyLower a.title) := by
    rwa [fuzzRatio_comm]
  have hnlt : ¬ b.published_at < a.published_at := lt_asymm hpub
  have hu1 : deduplicate_by_url [a, b] = [a, b] := by
    simp [deduplicate_by_url, deduplicate_by_url_aux, Ne.symm hurl]
  have hu2 : deduplicate_by_url [b, a] = [b, a] := by
    simp [deduplicate_by_url, deduplicate_by_url_aux, hurl]
  have hf : filter_sent history [a] = [a] := by
    simp [filter_sent, hsent]
  constructor
  · have s2 : titleStep threshold [a] b = [a] := by
      rw [titleStep, List.find?_cons_of_pos _ (by simpa using hsim2)]
      simp [hnlt]
    have ht : deduplicate_by_title threshold [a, b] = [a] := by
      rw [deduplicate_by_title, List.foldl_cons, List.foldl_cons, List.foldl_nil]
      show titleStep threshold (titleStep threshold [] a) b = [a]
      have s1 : titleStep threshold [] a = [a] := rfl
      rw [s1, s2]
    show filter_sent history (deduplicate_by_title threshold
      (deduplicate_by_url [a, b])) = [a]
    rw [hu1, ht, hf]
  · have s2 : titleStep threshold [b] a = [a] := by
      rw [titleStep, List.find?_cons_of_pos _ (by simpa using hsim)]
      simp [hpub]
    have ht : deduplicate_by_title threshold [b, a] = [a] := by
      rw [deduplicate_by_title, List.foldl_cons, List.foldl_cons, List.foldl_nil]
      show titleStep threshold (titleStep threshold [] b) a = [a]
      have s1 : titleStep threshold [] b = [b] := rfl
      rw [s1, s2]
    show filter_sent history (deduplicate_by_title threshold
      (deduplicate_by_url [b, a])) = [a]
    rw [hu2, ht, hf]

/-- Witness for C2: ratio("openai releases gpt-5", "openai releases
gpt-5 model") = 88 > 85, the first published earlier. -/
theorem title_similarity_tiebreak_witness :
    ("u1" : String) ≠ "u2" ∧
      is_sent [] "u1" = false ∧
      85 < fuzzRatio (pyLower "OpenAI releases GPT-5")
        (pyLower "OpenAI releases GPT-5 model") ∧
      ((1 : Int) < 3700) ∧
      deduplicate [] 85
          [⟨"u1", "OpenAI releases GPT-5", "c", 1, "ai", "s"⟩,
           ⟨"u2", "OpenAI releases GPT-5 model", "c", 3700, "ai", "s"⟩] =
        [⟨"u1", "OpenAI releases GPT-5", "c", 1, "ai", "s"⟩] ∧
      deduplicate [] 85
          [⟨"u2", "OpenAI releases GPT-5 model", "c", 3700, "ai", "s"⟩,
           ⟨"u1", "OpenAI releases GPT-5", "c", 1, "ai", "s"⟩] =
        [⟨"u1", "OpenAI releases GPT-5", "c", 1, "ai", "s"⟩] := by
  refine ⟨by decide, by decide, by decide, by decide, ?_, ?_⟩
  · exact (title_similarity_tiebreak [] 85
      ⟨"u1", "OpenAI releases GPT-5", "c", 1, "ai", "s"⟩
      ⟨"u2", "OpenAI releases GPT-5 model", "c", 3700, "ai", "s"⟩
      (by decide) (by decide) (by decide) (by decide)).1
  · exact (title_similarity_tiebreak [] 85
      ⟨"u1", "OpenAI releases GPT-5", "c", 1, "ai", "s"⟩
      ⟨"u2", "OpenAI releases GPT-5 model", "c", 3700, "ai", "s"⟩
      (by decide) (by decide) (by decide) (by decide)).2

/-- C7: any input article whose URL is a key of the loaded history map
is absent from the output of `deduplicate`; indeed no output article
carries its URL at all (`Article.__eq__` compares URLs only). -/
theorem history_containment (history : History) (threshold : Nat)
    (articles : List Article) (A : Article) (hA : A ∈ articles)
    (hsent : is_sent history A.url = true) :
    A ∉ deduplicate history threshold articles ∧
      ∀ o ∈ deduplicate history threshold articles, o.url ≠ A.url := by
  have key : ∀ o ∈ deduplicate history threshold articles, o.url ≠ A.url := by
    intro o ho heq
    have h1 := mem_deduplicate_not_sent ho
    rw [heq, hsent] at h1
    simp at h1
  exact ⟨fun hmem => key A hmem rfl, key⟩

/-- Witness for C7 at a concrete one-entry history. -/
theorem history_containment_witness :
    (⟨"http://x", "t0", "c", 1, "ai", "s"⟩ : Article) ∈
        [(⟨"http://x", "t0", "c", 1, "ai", "s"⟩ : Article)] ∧
      is_sent [("http://x", ⟨"http://x", "t0", 0⟩)] "http://x" = true ∧
      (⟨"http://x", "t0", "c", 1, "ai", "s"⟩ : Article) ∉
        deduplicate [("http://x", ⟨"http://x", "t0", 0⟩)] 80
          [⟨"http://x", "t0", "c", 1, "ai", "s"⟩] :=
  ⟨by decide, by decide,
    (history_containment [("http://x", ⟨"http://x", "t0", 0⟩)] 80
      [⟨"http://x", "t0", "c", 1, "ai", "s"⟩]
      ⟨"http://x", "t0", "c", 1, "ai", "s"⟩ (by decide) (by decide)).1⟩

/-- C8: the URL pass keeps exactly the first occurrence of each distinct
URL: its output has pairwise-distinct URLs, is a sublist of the input
(first-seen order), each kept article is the first input article with
its URL, and every input URL is represented. -/
theorem url_pass_first_occurrence (articles : List Article) :
    ((deduplicate_by_url articles).map (fun a => a.url)).Nodup ∧
      (deduplicate_by_url articles).Sublist articles ∧
      (∀ o ∈ deduplicate_by_url articles,
        articles.find? (fun x => x.url == o.url) = some o) ∧
      (∀ a ∈ articles, ∃ o ∈ deduplicate_by_url articles, o.url = a.url) :=
  ⟨nodup_url_deduplicate_by_url_aux articles [],
    deduplicate_by_url_aux_sublist articles [],
    fun o ho => find?_deduplicate_by_url_aux articles [] o ho,
    fun a ha => exists_deduplicate_by_url_aux articles [] a ha (by simp)⟩

/-! ## Claims about the multi-provider summarizer -/

theorem fallback_skips_errors (call : ProviderId → ProviderOutcome)
    (article : Article) (audience_level : String) :
    ∀ (pre rest : List ProviderId),
      (∀ q ∈ pre, call q = ProviderOutcome.apiError) →
      summarize_article_with_fallback call article audience_level (pre ++ rest) =
        summarize_article_with_fallback call article audience_level rest := by
  intro pre
  induction pre with
  | nil => intro rest _; rfl
  | cons q pre' ih =>
    intro rest h
    rw [List.cons_append]
    simp only [summarize_article_with_fallback, h q (List.mem_cons_self q pre')]
    exact ih rest (fun x hx => h x (List.mem_cons_of_mem q hx))

theorem fallback_shape (call : ProviderId → ProviderOutcome)
    (article : Article) (audience_level : String) :
    ∀ (chain : List ProviderId),
      ((summarize_article_with_fallback call article audience_level
            chain).summarization_failed = true ∧
        (summarize_article_with_fallback call article audience_level
            chain).summary_bullets = []) ∨
      ((summarize_article_with_fallback call article audience_level
            chain).summarization_failed = false ∧
        3 ≤ (summarize_article_with_fallback call article audience_level
            chain).summary_bullets.length ∧
        (summarize_article_with_fallback call article audience_level
            chain).summary_bullets.length ≤ 5) := by
  intro chain
  induction chain with
  | nil =>
    left
    exact ⟨rfl, by simp [summarize_article_with_fallback, SummarizedArticle.from_article]⟩
  | cons p rest ih =>
    cases hc : call p with
    | apiError => simpa only [summarize_article_with_fallback, hc] using ih
    | success bs =>
      by_cases hlen : bs.length < 3
      · simpa only [summarize_article_with_fallback, hc, if_pos hlen] using ih
      · right
        simp only [summarize_article_with_fallback, hc, if_neg hlen,
          SummarizedArticle.from_article]
        have hlen3 : 3 ≤ bs.length := Nat.not_lt.mp hlen
        have h0 : (bs.take 5).length = min 5 bs.length := List.length_take 5 bs
        have hne : (bs.take 5).isEmpty = false := by
          cases hbt : bs.take 5 with
          | nil =>
            exfalso
            rw [hbt, List.length_nil] at h0
            omega
          | cons x xs => rfl
        simp only [hne, Bool.false_eq_true, if_false, List.length_take]
        exact ⟨by simp, by omega, by omega⟩

/-- C3: if every provider in the chain either raises from
`summarize_async` or returns fewer than 3 bullets, the fallback walk
still produces a `SummarizedArticle` for the article (same url and
title — never dropped) with `summarization_failed = true` and empty
`summary_bullets`. -/
theorem provider_chain_exhaustion (call : ProviderId → ProviderOutcome)
    (article : Article) (audience_level : String) (chain : List ProviderId)
    (h : ∀ p ∈ chain, call p = ProviderOutcome.apiError ∨
      ∃ bs, call p = ProviderOutcome.success bs ∧ bs.length < 3) :
    (summarize_article_with_fallback call article audience_level
        chain).summarization_failed = true ∧
      (summarize_article_with_fallback call article audience_level
          chain).summary_bullets = [] ∧
      (summarize_article_with_fallback call article audience_level
          chain).url = article.url ∧
      (summarize_article_with_fallback call article audience_level
          chain).title = article.title := by
  induction chain with
  | nil =>
    exact ⟨rfl, by simp [summarize_article_with_fallback,
      SummarizedArticle.from_article], rfl, rfl⟩
  | cons p rest ih =>
    have hrest := ih (fun q hq => h q (List.mem_cons_of_mem p hq))
    rcases h p (List.mem_cons_self p rest) with hc | ⟨bs, hbs, hlen⟩
    · simpa only [summarize_article_with_fallback, hc] using hrest
    · simpa only [summarize_article_with_fallback, hbs, if_pos hlen] using hrest

/-- Witness for C3: a two-provider chain where both calls raise. -/
theorem provider_chain_exhaustion_witness :
    (summarize_article_with_fallback (fun _ => ProviderOutcome.apiError)
        ⟨"u", "t", "c", 0, "ai", "s"⟩ "beginner"
        ["alpha", "beta"]).summarization_failed = true ∧
      (summarize_article_with_fallback (fun _ => ProviderOutcome.apiError)
          ⟨"u", "t", "c", 0, "ai", "s"⟩ "beginner"
          ["alpha", "beta"]).summary_bullets = [] ∧
      (summarize_article_with_fallback (fun _ => ProviderOutcome.apiError)
          ⟨"u", "t", "c", 0, "ai", "s"⟩ "beginner"
          ["alpha", "beta"]).url = "u" ∧
      (summarize_article_with_fallback (fun _ => ProviderOutcome.apiError)
          ⟨"u", "t", "c", 0, "ai", "s"⟩ "beginner"
          ["alpha", "beta"]).title = "t" :=
  provider_chain_exhaustion (fun _ => ProviderOutcome.apiError)
    ⟨"u", "t", "c", 0, "ai", "s"⟩ "beginner" ["alpha", "beta"]
    (fun _ _ => Or.inl rfl)

/-- C4: when the providers before `p` all raise and `p` returns
`bs` with at least 3 bullets, the walk returns
`summarization_failed = false` with exactly the first `min (length bs) 5`
bullets in order; and for any chain at all the delivered article carries
either 0 bullets (failed) or 3 to 5 bullets (not failed). -/
theorem bullet_truncation (call : ProviderId → ProviderOutcome)
    (article : Article) (audience_level : String)
    (pre rest : List ProviderId) (p : ProviderId) (bs : List String)
    (hpre : ∀ q ∈ pre, call q = ProviderOutcome.apiError)
    (hp : call p = ProviderOutcome.success bs)
    (hlen : 3 ≤ bs.length) :
    (summarize_article_with_fallback call article audience_level
        (pre ++ p :: rest)).summarization_failed = false ∧
      (summarize_article_with_fallback call article audience_level
          (pre ++ p :: rest)).summary_bullets = bs.take 5 ∧
      (summarize_article_with_fallback call article audience_level
          (pre ++ p :: rest)).summary_bullets.length = min bs.length 5 ∧
      (∀ chain : List ProviderId,
        ((summarize_article_with_fallback call article audience_level
              chain).summarization_failed = true ∧
          (summarize_article_with_fallback call article audience_level
              chain).summary_bullets = []) ∨
        ((summarize_article_with_fallback call article audience_level
              chain).summarization_failed = false ∧
          3 ≤ (summarize_article_with_fallback call article audience_level
              chain).summary_bullets.length ∧
          (summarize_article_with_fallback call article audience_level
              chain).summary_bullets.length ≤ 5)) := by
  have hskip := fallback_skips_errors call article audience_level pre (p :: rest) hpre
  have hne : (bs.take 5).isEmpty = false := by
    have h0 : (bs.take 5).length = min 5 bs.length := List.length_take 5 bs
    cases hbt : bs.take 5 with
    | nil =>
      exfalso
      rw [hbt, List.length_nil] at h0
      omega
    | cons x xs => rfl
  have hstep : summarize_article_with_fallback call article audience_level
      (p :: rest) = SummarizedArticle.from_article article
        (some (bs.take 5)) audience_level false := by
    simp only [summarize_article_with_fallback, hp,
      if_neg (Nat.not_lt.mpr hlen)]
  have hbul : (SummarizedArticle.from_article article
      (some (bs.take 5)) audience_level false).summary_bullets = bs.take 5 := by
    simp only [SummarizedArticle.from_article, hne, Bool.false_eq_true, if_false]
  refine ⟨?_, ?_, ?_, fallback_shape call article audience_level⟩
  · rw [hskip, hstep]
    rfl
  · rw [hskip, hstep, hbul]
  · rw [hskip, hstep, hbul, List.length_take, Nat.min_comm]

/-- Witness for C4: first provider raises, second returns six bullets;
exactly the first five survive. -/
theorem bullet_truncation_witness :
    (summarize_article_with_fallback
        (fun q => if q = "beta" then
          ProviderOutcome.success ["one", "two", "three", "four", "five", "six"]
          else ProviderOutcome.apiError)
        ⟨"u", "t", "c", 0, "ai", "s"⟩ "beginner"
        (["alpha"] ++ "beta" :: ["gamma"])).summarization_failed = false ∧
      (summarize_article_with_fallback
          (fun q => if q = "beta" then
            ProviderOutcome.success ["one", "two", "three", "four", "five", "six"]
            else ProviderOutcome.apiError)
          ⟨"u", "t", "c", 0, "ai", "s"⟩ "beginner"
          (["alpha"] ++ "beta" :: ["gamma"])).summary_bullets =
        ["one", "two", "three", "four", "five", "six"].take 5 ∧
      (summarize_article_with_fallback
          (fun q => if q = "beta" then
            ProviderOutcome.success ["one", "two", "three", "four", "five", "six"]
            else ProviderOutcome.apiError)
          ⟨"u", "t", "c", 0, "ai", "s"⟩ "beginner"
          (["alpha"] ++ "beta" :: ["gamma"])).summary_bullets.length =
        min (["one", "two", "three", "four", "five", "six"] : List String).length 5 :=
  ⟨(bullet_truncation _ _ _ ["alpha"] ["gamma"] "beta"
      ["one", "two", "three", "four", "five", "six"]
      (by decide) (by decide) (by decide)).1,
    (bullet_truncation _ _ _ ["alpha"] ["gamma"] "beta"
      ["one", "two", "three", "four", "five", "six"]
      (by decide) (by decide) (by decide)).2.1,
    (bullet_truncation _ _ _ ["alpha"] ["gamma"] "beta"
      ["one", "two", "three", "four", "five", "six"]
      (by decide) (by decide) (by decide)).2.2.1⟩

/-! ## Claims about provider metrics -/

theorem runEvents_total_eq (provider_id : String) (events : List MetricsEvent) :
    (runEvents provider_id events).total_requests =
      (runEvents provider_id events).successful_requests +
        (runEvents provider_id events).failed_requests := by
  induction events using List.reverseRecOn with
  | nil => rfl
  | append_singleton evs e ih =>
    rw [runEvents, List.foldl_append] at *
    cases e with
    | success latency input_tokens output_tokens =>
      simp only [List.foldl_cons, List.foldl_nil, applyEvent,
        ProviderMetrics.record_success]
      omega
    | failure =>
      simp only [List.foldl_cons, List.foldl_nil, applyEvent,
        ProviderMetrics.record_failure]
      omega

theorem runEvents_consecutive_eq (provider_id : String)
    (events : List MetricsEvent) :
    (runEvents provider_id events).consecutive_failures =
      (events.reverse.takeWhile MetricsEvent.isFailure).length := by
  induction events using List.reverseRecOn with
  | nil => rfl
  | append_singleton evs e ih =>
    rw [runEvents, List.foldl_append] at *
    rw [List.reverse_append]
    cases e with
    | success latency input_tokens output_tokens =>
      simp [applyEvent, ProviderMetrics.record_success,
        List.takeWhile_cons, MetricsEvent.isFailure]
    | failure =>
      simp [applyEvent, ProviderMetrics.record_failure,
        List.takeWhile_cons, MetricsEvent.isFailure, ih]

/-- C10: from a fresh `ProviderMetrics`, after any sequence of
`record_success` / `record_failure` calls, `total_requests` equals
`successful_requests + failed_requests`, `consecutive_failures` counts
exactly the failures since the most recent success (the trailing
failure run), and it is 0 immediately after any success. -/
theorem metrics_accounting_invariant (provider_id : String)
    (events : List MetricsEvent) :
    ((runEvents provider_id events).total_requests =
        (runEvents provider_id events).successful_requests +
          (runEvents provider_id events).failed_requests) ∧
      ((runEvents provider_id events).consecutive_failures =
        (events.reverse.takeWhile MetricsEvent.isFailure).length) ∧
      (∀ (latency : ℚ) (input_tokens output_tokens : Nat),
        (runEvents provider_id
            (events ++ [MetricsEvent.success latency input_tokens
              output_tokens])).consecutive_failures = 0) :=
  ⟨runEvents_total_eq provider_id events,
    runEvents_consecutive_eq provider_id events,
    fun latency input_tokens output_tokens => by
      rw [runEvents, List.foldl_append]
      rfl⟩

/-! ## Claims about the provider selector -/

/-- C9: the selector's order is exactly the enabled configs' provider
ids (as a permutation — sorted by the strategy), and both the
"performance" strategy and any unknown strategy produce the identical
order to the "priority" strategy. -/
theorem selector_strategy_fallback (strategy : String)
    (configs : List ProviderConfig) :
    (build_provider_order strategy configs).Perm
        ((configs.filter (fun c => c.enabled)).map (fun c => c.provider_id)) ∧
      build_provider_order "performance" configs =
        build_provider_order "priority" configs ∧
      (strategy ≠ "priority" → strategy ≠ "cost" →
        build_provider_order strategy configs =
          build_provider_order "priority" configs) := by
  have k1 : (((configs.filter (fun c => c.enabled)).insertionSort
      priorityOrder).map (fun c => c.provider_id)).Perm
        ((configs.filter (fun c => c.enabled)).map (fun c => c.provider_id)) :=
    (List.perm_insertionSort priorityOrder _).map _
  have k2 : (((configs.filter (fun c => c.enabled)).insertionSort
      costOrder).map (fun c => c.provider_id)).Perm
        ((configs.filter (fun c => c.enabled)).map (fun c => c.provider_id)) :=
    (List.perm_insertionSort costOrder _).map _
  have hPri : build_provider_order "priority" configs =
      ((configs.filter (fun c => c.enabled)).insertionSort priorityOrder).map
        (fun c => c.provider_id) := by
    simp [build_provider_order]
  have hCost : build_provider_order "cost" configs =
      ((configs.filter (fun c => c.enabled)).insertionSort costOrder).map
        (fun c => c.provider_id) := by
    simp [build_provider_order]
  have hPerf : build_provider_order "performance" configs =
      ((configs.filter (fun c => c.enabled)).insertionSort priorityOrder).map
        (fun c => c.provider_id) := by
    simp [build_provider_order]
  have hOther : strategy ≠ "priority" → strategy ≠ "cost" →
      strategy ≠ "performance" →
      build_provider_order strategy configs =
        ((configs.filter (fun c => c.enabled)).insertionSort priorityOrder).map
          (fun c => c.provider_id) := by
    intro h1 h2 h3
    simp [build_provider_order, h1, h2, h3]
  refine ⟨?_, hPerf.trans hPri.symm, ?_⟩
  · rcases eq_or_ne strategy "priority" with h | h1
    · rw [h, hPri]; exact k1
    · rcases eq_or_ne strategy "cost" with h | h2
      · rw [h, hCost]; exact k2
      · rcases eq_or_ne strategy "performance" with h | h3
        · rw [h, hPerf]; exact k1
        · rw [hOther h1 h2 h3]; exact k1
  · intro h1 h2
    rcases eq_or_ne strategy "performance" with h | h3
    · rw [h, hPerf, hPri]
    · rw [hOther h1 h2 h3, hPri]

/-- Witness for C9 at the unknown strategy "latency" and two enabled
configs. -/
theorem selector_strategy_fallback_witness :
    ("latency" : String) ≠ "priority" ∧ ("latency" : String) ≠ "cost" ∧
      build_provider_order "latency"
          [⟨"prov_a", "anthropic", "k", "m", true, 2, 30, 500, 3/10, 3, 15⟩,
           ⟨"prov_b", "openai", "k", "m", true, 1, 30, 500, 3/10, 5, 15⟩] =
        build_provider_order "priority"
          [⟨"prov_a", "anthropic", "k", "m", true, 2, 30, 500, 3/10, 3, 15⟩,
           ⟨"prov_b", "openai", "k", "m", true, 1, 30, 500, 3/10, 5, 15⟩] :=
  ⟨by decide, by decide,
    (selector_strategy_fallback "latency"
        [⟨"prov_a", "anthropic", "k", "m", true, 2, 30, 500, 3/10, 3, 15⟩,
         ⟨"prov_b", "openai", "k", "m", true, 1, 30, 500, 3/10, 5, 15⟩]).2.2
      (by decide) (by decide)⟩

/-! ## Claims about the scoring model -/

theorem score_content_depth_bounds (article : Article) :
    0 ≤ score_content_depth article ∧ score_content_depth article ≤ 1 := by
  simp only [score_content_depth]
  split_ifs with h1 h2
  · have hcast : (article.content.length : ℚ) < 200 := by exact_mod_cast h1
    have hpos : (0 : ℚ) ≤ (article.content.length : ℚ) := by positivity
    constructor <;> [positivity; linarith]
  · have hge : (200 : ℚ) ≤ (article.content.length : ℚ) := by
      exact_mod_cast Nat.not_lt.mp h1
    have hlt : (article.content.length : ℚ) < 500 := by exact_mod_cast h2
    constructor <;> linarith
  · have hub : ((min (article.content.length - 500) 1000 : ℕ) : ℚ) ≤ 1000 := by
      exact_mod_cast Nat.min_le_right (article.content.length - 500) 1000
    have hlb : (0 : ℚ) ≤ ((min (article.content.length - 500) 1000 : ℕ) : ℚ) :=
      Nat.cast_nonneg _
    constructor <;> linarith

theorem score_recency_bounds (now : Int) (article : Article) :
    0 ≤ score_recency now article ∧ score_recency now article ≤ 1 := by
  simp only [score_recency]
  split_ifs <;> norm_num

theorem score_source_trust_bounds (topics : List (String × TopicConfig))
    (article : Article) :
    0 ≤ score_source_trust topics article ∧
      score_source_trust topics article ≤ 1 := by
  unfold score_source_trust
  split
  · norm_num
  · split_ifs <;> norm_num

theorem bankersRound_nonneg {q : ℚ} (h : 0 ≤ q) : 0 ≤ bankersRound q := by
  simp only [bankersRound]
  have h0 : (0 : ℤ) ≤ ⌊q⌋ := Int.floor_nonneg.mpr h
  split_ifs <;> omega

theorem bankersRound_le {q : ℚ} {m : ℤ} (hq : q ≤ m) : bankersRound q ≤ m := by
  simp only [bankersRound]
  have hfl : ⌊q⌋ ≤ m := by
    have h := Int.floor_le_floor hq
    rwa [Int.floor_intCast] at h
  split_ifs with hr1 hr2 hr3
  · exact hfl
  all_goals {
    have hhalf : (1 : ℚ) / 2 ≤ q - (⌊q⌋ : ℚ) := not_lt.mp hr1
    have hlt : ⌊q⌋ < m := by
      rcases lt_or_eq_of_le hfl with h | h
      · exact h
      · exfalso
        rw [h] at hhalf
        have hcast : (⌊q⌋ : ℚ) = (m : ℚ) := by exact_mod_cast h
        rw [h] at hcast
        have : (m : ℚ) < q := by linarith
        exact absurd hq (not_le.mpr this)
    omega
  }

theorem round3_bounds {q : ℚ} (h0 : 0 ≤ q) (h1 : q ≤ 1) :
    0 ≤ round3 q ∧ round3 q ≤ 1 := by
  unfold round3
  have hq0 : 0 ≤ q * 1000 := by positivity
  have hq1 : q * 1000 ≤ ((1000 : ℤ) : ℚ) := by push_cast; linarith
  have hb0 := bankersRound_nonneg hq0
  have hb1 := bankersRound_le hq1
  constructor
  · exact div_nonneg (by exact_mod_cast hb0) (by norm_num)
  · rw [div_le_one (by norm_num : (0 : ℚ) < 1000)]
    exact_mod_cast hb1

/-- C5: for every article (and every clock value and topic
configuration) `calculate_score` — the weighted sum
0.4·content + 0.3·recency + 0.3·trust rounded to 3 decimals — lies in
[0, 1], and the score is a function of the article alone (given the
clock and configuration): equal inputs give equal outputs. -/
theorem scoring_bounds_deterministic (now : Int)
    (topics : List (String × TopicConfig)) (article : Article) :
    0 ≤ calculate_score now topics article ∧
      calculate_score now topics article ≤ 1 ∧
      ∀ a2 : Article, a2 = article →
        calculate_score now topics a2 = calculate_score now topics article := by
  obtain ⟨hc0, hc1⟩ := score_content_depth_bounds article
  obtain ⟨hr0, hr1⟩ := score_recency_bounds now article
  obtain ⟨hs0, hs1⟩ := score_source_trust_bounds topics article
  have hsum0 : 0 ≤ score_content_depth article * (4 / 10) +
      score_recency now article * (3 / 10) +
      score_source_trust topics article * (3 / 10) := by linarith
  have hsum1 : score_content_depth article * (4 / 10) +
      score_recency now article * (3 / 10) +
      score_source_trust topics article * (3 / 10) ≤ 1 := by linarith
  obtain ⟨hb0, hb1⟩ := round3_bounds hsum0 hsum1
  exact ⟨hb0, hb1, fun a2 h => by rw [h]⟩

/-- Witness for C5 at a concrete article, clock and configuration. -/
theorem scoring_bounds_deterministic_witness :
    0 ≤ calculate_score 86400
        [("ai", ⟨"beginner", false, none, 1/2, 5, ["techcrunch"]⟩)]
        ⟨"u", "t", "hello world content", 3600, "ai", "TechCrunch"⟩ ∧
      calculate_score 86400
          [("ai", ⟨"beginner", false, none, 1/2, 5, ["techcrunch"]⟩)]
          ⟨"u", "t", "hello world content", 3600, "ai", "TechCrunch"⟩ ≤ 1 :=
  ⟨(scoring_bounds_deterministic 86400
      [("ai", ⟨"beginner", false, none, 1/2, 5, ["techcrunch"]⟩)]
      ⟨"u", "t", "hello world content", 3600, "ai", "TechCrunch"⟩).1,
    (scoring_bounds_deterministic 86400
      [("ai", ⟨"beginner", false, none, 1/2, 5, ["techcrunch"]⟩)]
      ⟨"u", "t", "hello world content", 3600, "ai", "TechCrunch"⟩).2.1⟩

/-! ## Claims about the ranker -/

theorem insertionKeys_not_seen :
    ∀ (l : List String) (seen : List String) (k : String),
      k ∈ insertionKeys seen l → k ∉ seen := by
  intro l
  induction l with
  | nil => intro seen k hk; simp [insertionKeys] at hk
  | cons t rest ih =>
    intro seen k hk
    rw [insertionKeys] at hk
    split at hk
    · exact ih seen k hk
    · rcases List.mem_cons.mp hk with h | h
      · subst h; assumption
      · exact fun hmem => ih (t :: seen) k h (List.mem_cons_of_mem _ hmem)

theorem insertionKeys_nodup :
    ∀ (l : List String) (seen : List String), (insertionKeys seen l).Nodup := by
  intro l
  induction l with
  | nil => intro seen; simp [insertionKeys]
  | cons t rest ih =>
    intro seen
    rw [insertionKeys]
    split
    · exact ih seen
    · refine List.nodup_cons.mpr ⟨?_, ih (t :: seen)⟩
      intro hmem
      exact insertionKeys_not_seen rest (t :: seen) t hmem
        (List.mem_cons_self t seen)

theorem mem_process_topic {topic_config : TopicConfig}
    {bucket : List RankedArticle} {ra : RankedArticle}
    (h : ra ∈ process_topic topic_config bucket) :
    ra ∈ bucket ∧ topic_config.min_quality_score ≤ ra.quality_score := by
  unfold process_topic at h
  have h1 : ra ∈ (bucket.filter
      (fun ra => topic_config.min_quality_score ≤ ra.quality_score)).insertionSort
        scoreDesc :=
    List.Sublist.mem h (List.take_sublist _ _)
  have h2 := ((List.perm_insertionSort scoreDesc _).mem_iff).mp h1
  have h3 := List.mem_filter.mp h2
  exact ⟨h3.1, by simpa using h3.2⟩

theorem countP_flatMap_le (p : RankedArticle → Bool) (T : String) (m : Nat)
    (f : String → List RankedArticle) :
    ∀ (keys : List String), keys.Nodup →
      (∀ t ∈ keys, t ≠ T → (f t).countP p = 0) →
      (f T).countP p ≤ m →
      (keys.flatMap f).countP p ≤ m := by
  intro keys
  induction keys with
  | nil => intro _ _ _; simp
  | cons t ks ih =>
    intro hnodup hzero hT
    rw [List.flatMap_cons, List.countP_append]
    rcases eq_or_ne t T with rfl | hne
    · have hks : (ks.flatMap f).countP p = 0 := by
        rw [List.countP_eq_zero]
        intro a ha
        obtain ⟨t2, ht2, ha2⟩ := List.mem_flatMap.mp ha
        have hne2 : t2 ≠ t := fun h => (List.nodup_cons.mp hnodup).1 (h ▸ ht2)
        have h0 := hzero t2 (List.mem_cons_of_mem _ ht2) hne2
        rw [List.countP_eq_zero] at h0
        exact h0 a ha2
      omega
    · have h0 := hzero t (List.mem_cons_self t ks) hne
      have hrest := ih (List.nodup_cons.mp hnodup).2
        (fun t2 ht2 hne2 => hzero t2 (List.mem_cons_of_mem _ ht2) hne2) hT
      omega

theorem topic_output_topic {topics : List (String × TopicConfig)}
    {ranked : List RankedArticle} {topic : String} {ra : RankedArticle}
    (h : ra ∈ topic_output topics ranked topic) :
    ra.article.topic = topic ∧
      ∃ c, topics.lookup topic = some c ∧
        c.min_quality_score ≤ ra.quality_score := by
  unfold topic_output at h
  cases hl : topics.lookup topic with
  | none => rw [hl] at h; simp at h
  | some c =>
    rw [hl] at h
    obtain ⟨hbucket, hmin⟩ := mem_process_topic h
    have htop : ra.article.topic = topic := by
      simpa using (List.mem_filter.mp hbucket).2
    exact ⟨htop, c, rfl, hmin⟩

theorem ranker_flatMap_cap (topics : List (String × TopicConfig))
    (T : String) (cfg : TopicConfig) (hT : topics.lookup T = some cfg)
    (ranked : List RankedArticle) (keys : List String) (hkeys : keys.Nodup) :
    (keys.flatMap (topic_output topics ranked)).countP
      (fun ra => ra.article.topic == T) ≤ cfg.max_articles_per_day := by
  refine countP_flatMap_le _ T _ _ keys hkeys ?_ ?_
  · intro t ht hne
    rw [List.countP_eq_zero]
    intro ra hra
    have htop := (topic_output_topic hra).1
    simp [htop, hne]
  · unfold topic_output
    rw [hT]
    refine le_trans (List.countP_le_length _) ?_
    unfold process_topic
    exact List.length_take_le _ _

theorem ranker_flatMap_min (topics : List (String × TopicConfig))
    (ranked : List RankedArticle) (keys : List String) :
    ∀ ra ∈ keys.flatMap (topic_output topics ranked),
      ∃ c, topics.lookup ra.article.topic = some c ∧
        c.min_quality_score ≤ ra.quality_score := by
  intro ra hra
  obtain ⟨t, ht, hmem⟩ := List.mem_flatMap.mp hra
  obtain ⟨htop, c, hl, hmin⟩ := topic_output_topic hmem
  exact ⟨c, by rw [htop]; exact hl, hmin⟩

/-- C6: for every topic `T` with a `TopicConfig`, `rank_and_filter`
returns at most `max_articles_per_day` articles of topic `T`; every
returned article's topic has a `TopicConfig` (unconfigured topics
contribute nothing) and its score is at least that config's
`min_quality_score`. -/
theorem ranker_per_topic_cap (now : Int)
    (topics : List (String × TopicConfig)) (articles : List Article)
    (T : String) (cfg : TopicConfig) (hT : topics.lookup T = some cfg) :
    (rank_and_filter now topics articles).countP
        (fun ra => ra.article.topic == T) ≤ cfg.max_articles_per_day ∧
      ∀ ra ∈ rank_and_filter now topics articles,
        ∃ c, topics.lookup ra.article.topic = some c ∧
          c.min_quality_score ≤ ra.quality_score := by
  unfold rank_and_filter
  split_ifs with hemp
  · exact ⟨by simp, by simp⟩
  · exact ⟨ranker_flatMap_cap topics T cfg hT _ _ (insertionKeys_nodup _ []),
      ranker_flatMap_min topics _ _⟩

/-- Witness for C6: topic "ai" capped at 2 articles per day. -/
theorem ranker_per_topic_cap_witness :
    ([("ai", ⟨"beginner", false, none, 1/2, 2, []⟩)] :
        List (String × TopicConfig)).lookup "ai" =
      some ⟨"beginner", false, none, 1/2, 2, []⟩ ∧
      (rank_and_filter 3600
          [("ai", ⟨"beginner", false, none, 1/2, 2, []⟩)]
          [⟨"u1", "t1", "c1", 0, "ai", "s"⟩,
           ⟨"u2", "t2", "c2", 600, "ai", "s"⟩,
           ⟨"u3", "t3", "c3", 1200, "ai", "s"⟩]).countP
        (fun ra => ra.article.topic == "ai") ≤ 2 :=
  ⟨rfl,
    (ranker_per_topic_cap 3600
      [("ai", ⟨"beginner", false, none, 1/2, 2, []⟩)]
      [⟨"u1", "t1", "c1", 0, "ai", "s"⟩,
       ⟨"u2", "t2", "c2", 600, "ai", "s"⟩,
       ⟨"u3", "t3", "c3", 1200, "ai", "s"⟩]
      "ai" ⟨"beginner", false, none, 1/2, 2, []⟩ rfl).1⟩
